import Mathlib

set_option maxHeartbeats 1600000

/-
  Verification development for the UVC V4L2 control-plane layer
  (drivers/media/video/uvc/uvc_v4l2.c).

  The C code is shallowly embedded: machine integers are natural numbers
  with explicit reduction modulo 2^32 where the C source performs
  unsigned 32-bit arithmetic; pointer out-parameters become returned
  values; fallible calls return Except; the external collaborators
  (device probe, buffer queue, still trigger) are parameters supplying
  their outcomes.
-/

deriving instance DecidableEq for Except

namespace UvcV4l2

/-- Modulus of unsigned 32-bit (`__u32`) machine arithmetic. -/
def U32 : Nat := 4294967296

/-- Unsigned 32-bit addition (wraps modulo 2^32). -/
def u32add (a b : Nat) : Nat := (a + b) % U32

/-- Unsigned 32-bit multiplication (wraps modulo 2^32). -/
def u32mul (a b : Nat) : Nat := (a * b) % U32

/-- Unsigned 32-bit subtraction `a - b` with two's-complement wraparound. -/
def u32sub (a b : Nat) : Nat := (a + (U32 - b % U32)) % U32

/-- Absolute distance between two unsigned values, as computed by
`interval > x ? interval - x : x - interval` in `uvc_try_frame_interval`. -/
def absDist (a b : Nat) : Nat := if a > b then a - b else b - a

/-- Privilege state of an open file handle (`enum uvc_handle_state`). -/
inductive HandleState where
  | passive
  | active
deriving DecidableEq

/-- Frame descriptor (`struct uvc_frame`): size, default interval, and the
interval table.  When `bFrameIntervalType` is nonzero, `dwFrameInterval`
is the discrete interval list of that length; when it is zero,
`dwFrameInterval` holds the stepwise triple `[min, max, step]`. -/
structure UvcFrame where
  bFrameIndex : Nat
  wWidth : Nat
  wHeight : Nat
  dwDefaultFrameInterval : Nat
  bFrameIntervalType : Nat
  dwFrameInterval : List Nat
deriving DecidableEq

/-- One entry of a format's still-image size table
(`struct uvc_still_frame`, one element of its `frame[]` array). -/
structure UvcStillFrameEntry where
  wWidth : Nat
  wHeight : Nat
deriving DecidableEq

/-- Pixel format descriptor (`struct uvc_format`) with its frame list and
still-image size table. -/
structure UvcFormat where
  fcc : Nat
  index : Nat
  bpp : Nat
  colorspace : Nat
  frame : List UvcFrame
  still_frame : List UvcStillFrameEntry
deriving DecidableEq

/-- UVC probe/commit control block (`struct uvc_streaming_control`),
restricted to the fields uvc_v4l2.c reads or writes. -/
structure UvcStreamingControl where
  bmHint : Nat
  bFormatIndex : Nat
  bFrameIndex : Nat
  dwFrameInterval : Nat
  dwMaxVideoFrameSize : Nat
deriving DecidableEq

/-- The all-zero control block (`memset(probe, 0, sizeof *probe)`). -/
def zeroControl : UvcStreamingControl :=
  { bmHint := 0, bFormatIndex := 0, bFrameIndex := 0,
    dwFrameInterval := 0, dwMaxVideoFrameSize := 0 }

/-- Pixel-format request descriptor (`struct v4l2_pix_format`). -/
structure V4l2PixFormat where
  pixelformat : Nat
  width : Nat
  height : Nat
  field : Nat
  bytesperline : Nat
  sizeimage : Nat
  colorspace : Nat
  priv : Nat
deriving DecidableEq

/-- Format request (`struct v4l2_format`): buffer type plus pixel format. -/
structure V4l2Format where
  type : Nat
  pix : V4l2PixFormat
deriving DecidableEq

/-- Per-stream mutable state (`struct uvc_streaming`): the capability
table, the committed main and still configurations, the two quirk bits
read by `uvc_v4l2_try_format`, and the observable state of the two
buffer queues (allocation and streaming status are what uvc_v4l2.c
queries through `uvc_queue_allocated` / `uvc_queue_streaming`). -/
structure UvcStreaming where
  type : Nat
  format : List UvcFormat
  ctrl : UvcStreamingControl
  cur_format : Option UvcFormat
  cur_frame : Option UvcFrame
  quirk_probe_extrafields : Bool
  quirk_reduce_mem : Bool
  queue_allocated : Bool
  queue_streaming : Bool
  still_ctrl : UvcStreamingControl
  still_format : Option UvcFormat
  still_frame_sel : Option UvcFrame
  still_img_configed : Bool
  still_decoding : Bool
  still_waiting_frame : Bool
  still_queue_allocated : Bool
deriving DecidableEq

/-- Error codes returned by the embedded operations.  `eprobe` stands for
whatever negative code the external device probe returned, `eext` for a
propagated error of another external collaborator (buffer free, still
trigger, queue operation). -/
inductive UvcErr where
  | einval
  | ebusy
  | enomem
  | eprobe
  | eext
deriving DecidableEq

/-- Outcome function of the external device probe
(`uvc_probe_video` / `uvc_probe_still`): given the candidate control
block it yields the negotiated control block or an error. -/
def ProbeFn : Type := UvcStreamingControl → Except Unit UvcStreamingControl

/-- Frame-interval selection (`uvc_try_frame_interval`).  Discrete case:
scan the interval list keeping the previous distance, stop at the first
increase and return the previous entry.  Stepwise case: round up to the
nearest step multiple above min (unsigned 32-bit arithmetic, wrapping),
then clamp to max. -/
def uvc_interval_loop (r : Nat) : List Nat → Nat → Nat → Nat
  | [], _, prev => prev
  | x :: xs, best, prev =>
    let dist := absDist r x
    if dist > best then prev else uvc_interval_loop r xs dist x

/-- Embedding of `uvc_try_frame_interval`.  The initial `best` is
`(__u32)-1`; the initial `prev` value 0 is never returned for a
non-empty discrete list because the first distance can never exceed
`(__u32)-1`. -/
def uvc_try_frame_interval (frame : UvcFrame) (interval : Nat) : Nat :=
  if frame.bFrameIntervalType ≠ 0 then
    uvc_interval_loop interval frame.dwFrameInterval (U32 - 1) 0
  else
    let mn := frame.dwFrameInterval.getD 0 0
    let mx := frame.dwFrameInterval.getD 1 0
    let st := frame.dwFrameInterval.getD 2 0
    let t1 := u32sub interval mn
    let t2 := u32add t1 (st / 2)
    let res := u32add mn (u32mul (t2 / st) st)
    if res > mx then mx else res

/-- Overlap distance between a frame size `(w, h)` and a requested size
`(rw, rh)`, exactly as computed (in unsigned 32-bit arithmetic) by the
frame-selection loop of `uvc_v4l2_try_format`:
`d = w*h + rw*rh - 2*(min(w,rw)*min(h,rh))`. -/
def uvc_frame_dist (w h rw rh : Nat) : Nat :=
  u32sub (u32add (u32mul w h) (u32mul rw rh))
    (u32mul 2 (u32mul (Nat.min w rw) (Nat.min h rh)))

/-- The same overlap distance in exact natural-number arithmetic; this is
the formula the specification states. -/
def mathDist (w h rw rh : Nat) : Nat :=
  w * h + rw * rh - 2 * (Nat.min w rw * Nat.min h rh)

/-- Frame-selection loop of `uvc_v4l2_try_format`: keep the first frame
with strictly smaller distance than any seen before, and stop scanning
as soon as the minimum reaches zero. -/
def uvc_find_frame_loop (rw rh : Nat) :
    List UvcFrame → Nat → Option UvcFrame → Option UvcFrame
  | [], _, best => best
  | f :: fs, maxd, best =>
    let d := uvc_frame_dist f.wWidth f.wHeight rw rh
    let maxd' := if d < maxd then d else maxd
    let best' := if d < maxd then some f else best
    if maxd' = 0 then best' else uvc_find_frame_loop rw rh fs maxd' best'

/-- Frame-size selection (the SelectFrameSize part of
`uvc_v4l2_try_format`): scan the format's frame list starting with
`maxd = (unsigned)-1` and no frame selected. -/
def uvc_find_frame (format : UvcFormat) (rw rh : Nat) : Option UvcFrame :=
  uvc_find_frame_loop rw rh format.frame (U32 - 1) none

/-- Initial `dwMaxVideoFrameSize` of the candidate probe block: zero
after the memset, overwritten by the previously negotiated value under
the PROBE_EXTRAFIELDS quirk, and overwritten again by the reduced-memory
estimate (`width*height*2/5`) under the REDUCE_MEM_USAGE quirk. -/
def probeMaxVideoFrameSize (s : UvcStreaming) (frame : UvcFrame) : Nat :=
  if s.quirk_reduce_mem then u32mul (u32mul frame.wWidth frame.wHeight) 2 / 5
  else if s.quirk_probe_extrafields then s.ctrl.dwMaxVideoFrameSize
  else 0

/-- Candidate probe block built by `uvc_v4l2_try_format` before probing
the device (BuildCandidateParams): the zeroed control block with the
hint bit marking `dwFrameInterval`, the matched format and frame
indices, the negotiated default interval and the quirk-dependent max
video frame size. -/
def candidateProbe (s : UvcStreaming) (format : UvcFormat)
    (frame : UvcFrame) : UvcStreamingControl :=
  { bmHint := 1, bFormatIndex := format.index,
    bFrameIndex := frame.bFrameIndex,
    dwFrameInterval :=
      uvc_try_frame_interval frame frame.dwDefaultFrameInterval,
    dwMaxVideoFrameSize := probeMaxVideoFrameSize s frame }

/-- Embedding of `uvc_v4l2_try_format`.  Returns the result of the call
(negotiated control block, matched format, selected frame on success)
together with the state of the caller's format descriptor after the
call; the descriptor is rewritten only on the success path.  The
requested width and height are truncated to `__u16` as in the source
(`__u16 rw, rh`). -/
def uvc_v4l2_try_format (pf : ProbeFn) (s : UvcStreaming) (fmt : V4l2Format) :
    Except UvcErr (UvcStreamingControl × UvcFormat × UvcFrame) × V4l2Format :=
  if fmt.type ≠ s.type then (.error .einval, fmt)
  else
    match s.format.find? (fun f => f.fcc == fmt.pix.pixelformat) with
    | none => (.error .einval, fmt)
    | some format =>
      match uvc_find_frame_loop (fmt.pix.width % 65536)
          (fmt.pix.height % 65536) format.frame (U32 - 1) none with
      | none => (.error .einval, fmt)
      | some frame =>
        match pf (candidateProbe s format frame) with
        | .error _ => (.error .eprobe, fmt)
        | .ok p =>
          ( .ok (p, format, frame),
            { fmt with pix :=
              { fmt.pix with
                width := frame.wWidth,
                height := frame.wHeight,
                field := 1,
                bytesperline := format.bpp * frame.wWidth / 8,
                sizeimage := p.dwMaxVideoFrameSize,
                colorspace := format.colorspace,
                priv := 0 } } )

/-- Committed main-pipeline configuration of a stream: the control
parameters and the current format/frame pointers that `uvc_v4l2_set_format`
commits together. -/
def mainConfig (s : UvcStreaming) :
    UvcStreamingControl × Option UvcFormat × Option UvcFrame :=
  (s.ctrl, s.cur_format, s.cur_frame)

/-- Commit of a negotiated main configuration into the stream state:
`memcpy` of the probe result into `stream->ctrl` and update of
`cur_format` / `cur_frame`. -/
def commitMain (s : UvcStreaming) (p : UvcStreamingControl)
    (fo : UvcFormat) (fr : UvcFrame) : UvcStreaming :=
  { s with ctrl := p, cur_format := some fo, cur_frame := some fr }

/-- Embedding of `uvc_v4l2_set_format`: try-format first; on success,
fail busy if the main queue has allocated buffers, otherwise commit the
negotiated configuration.  Returns (result, stream after, descriptor
after). -/
def uvc_v4l2_set_format (pf : ProbeFn) (s : UvcStreaming) (fmt : V4l2Format) :
    Except UvcErr Unit × UvcStreaming × V4l2Format :=
  if fmt.type ≠ s.type then (.error .einval, s, fmt)
  else
    match uvc_v4l2_try_format pf s fmt with
    | (.error e, f) => (.error e, s, f)
    | (.ok (p, fo, fr), f) =>
      if s.queue_allocated then (.error .ebusy, s, f)
      else (.ok (), commitMain s p fo fr, f)

/-- Result of `uvc_v4l2_set_streamparm`.  `nullDeref` marks the state in
which the C code dereferences `stream->cur_frame` while it is NULL
(no main configuration committed): the source performs the read
unconditionally. -/
inductive SPRes where
  | ok
  | err (e : UvcErr)
  | nullDeref
deriving DecidableEq

/-- Embedding of `uvc_v4l2_set_streamparm`.  `ptype` is `parm->type` and
`interval` is the requested interval already converted from the caller's
fraction by the external `uvc_fraction_to_interval`. -/
def uvc_v4l2_set_streamparm (pf : ProbeFn) (s : UvcStreaming)
    (ptype interval : Nat) : SPRes × UvcStreaming :=
  if ptype ≠ s.type then (.err .einval, s)
  else if s.queue_streaming then (.err .ebusy, s)
  else
    match s.cur_frame with
    | none => (.nullDeref, s)
    | some fr =>
      match pf { s.ctrl with dwFrameInterval := uvc_try_frame_interval fr interval } with
      | .error _ => (.err .eprobe, s)
      | .ok p => (.ok, { s with ctrl := p })

/-- Embedding of `uvc_v4l2_get_still_idx`: 1-based index of the exact
requested size in the format's still-size table, `-EINVAL` if the table
is empty or no entry matches.  The requested size is truncated to
`__u16` as in the source. -/
def uvc_v4l2_get_still_idx (fmt : V4l2Format) (format : UvcFormat) :
    Except UvcErr Nat :=
  if format.still_frame.length = 0 then .error .einval
  else
    let rw := fmt.pix.width % 65536
    let rh := fmt.pix.height % 65536
    match format.still_frame.findIdx?
        (fun f => f.wWidth == rw && f.wHeight == rh) with
    | some i => .ok (i + 1)
    | none => .error .einval

/-- Embedding of `uvc_v4l2_try_format_still`: look up the format by
fourcc, find the exact still size, then probe through the still-specific
probe entry.  Note that the source never writes through its
`uvc_format` / `uvc_frame` out-parameters. -/
def uvc_v4l2_try_format_still (pfStill : ProbeFn) (s : UvcStreaming)
    (fmt : V4l2Format) : Except UvcErr UvcStreamingControl :=
  if fmt.type ≠ s.type then .error .einval
  else
    match s.format.find? (fun f => f.fcc == fmt.pix.pixelformat) with
    | none => .error .einval
    | some format =>
      match uvc_v4l2_get_still_idx fmt format with
      | .error _ => .error .einval
      | .ok idx =>
        let probe0 := { zeroControl with
          bFormatIndex := format.index, bFrameIndex := idx }
        match pfStill probe0 with
        | .error _ => .error .eprobe
        | .ok p => .ok p

/-- Teardown of a previously configured still pipeline performed by
`uvc_v4l2_set_format_still` before re-negotiating: the still queue's
buffers are freed and the configured flag cleared. -/
def stillTeardown (s : UvcStreaming) : UvcStreaming :=
  { s with still_queue_allocated := false, still_img_configed := false }

/-- Commit of a negotiated still configuration: store the negotiated
control block and set the configured flag.  The format/frame pointers
are stored from the local variables of `uvc_v4l2_set_format_still`,
which `uvc_v4l2_try_format_still` never assigns, i.e. NULL. -/
def stillCommit (s : UvcStreaming) (p : UvcStreamingControl) : UvcStreaming :=
  { s with still_ctrl := p, still_format := none, still_frame_sel := none, still_img_configed := true }

/-- Embedding of `uvc_v4l2_set_format_still`.  `freeOk` is the outcome of
the external `uvc_free_buffers` on the still queue.  If the still image
was previously configured, the old queue is freed and the configured
flag cleared before the probe runs; the commit stores the negotiated
control block and sets the configured flag. -/
def uvc_v4l2_set_format_still (pfStill : ProbeFn) (freeOk : Bool)
    (s : UvcStreaming) (fmt : V4l2Format) :
    Except UvcErr Unit × UvcStreaming :=
  if fmt.type ≠ s.type then (.error .einval, s)
  else if s.still_decoding then (.error .ebusy, s)
  else
    match (if s.still_img_configed then
        (if freeOk then Except.ok (stillTeardown s)
          else Except.error UvcErr.eext)
      else Except.ok s) with
    | .error e => (.error e, s)
    | .ok s1 =>
      match uvc_v4l2_try_format_still pfStill s1 fmt with
      | .error e => (.error e, s1)
      | .ok p => (.ok (), stillCommit s1 p)

/-- Privilege arbitration state shared by the open handles of one
stream: the per-handle states (indexed by handle number) together with
the stream's `atomic_t active` counter. -/
structure PrivState where
  handles : List HandleState
  active : Int
deriving DecidableEq

/-- Result of a privilege acquisition attempt. -/
inductive AcqRes where
  | ok
  | ebusy
deriving DecidableEq

/-- Embedding of `uvc_acquire_privileges` for handle `i`: no-op success
when the handle is already active; otherwise atomically increment the
stream counter, roll the increment back and fail busy when the new value
is not 1, and mark the handle active on success. -/
def uvc_acquire_privileges (s : PrivState) (i : Nat) : AcqRes × PrivState :=
  if s.handles.getD i .passive = .active then (.ok, s)
  else
    let c := s.active + 1
    if c ≠ 1 then (.ebusy, { s with active := c - 1 })
    else (.ok, { handles := s.handles.set i .active, active := c })

/-- Embedding of `uvc_dismiss_privileges` for handle `i`: decrement the
counter only when the handle was active, and force the handle passive. -/
def uvc_dismiss_privileges (s : PrivState) (i : Nat) : PrivState :=
  { handles := s.handles.set i .passive,
    active :=
      if s.handles.getD i .passive = .active then s.active - 1 else s.active }

/-- Privilege effect of `uvc_v4l2_release`: the handler calls
`uvc_dismiss_privileges` unconditionally before destroying the handle
(the buffer-freeing it performs for a privileged handle only touches the
external buffer queues, not the privilege state). -/
def uvc_release_priv (s : PrivState) (i : Nat) : PrivState :=
  uvc_dismiss_privileges s i

/-- One privilege operation issued by handle `i`. -/
inductive PrivOp where
  | acq (i : Nat)
  | dis (i : Nat)
deriving DecidableEq

/-- Handle index of a privilege operation. -/
def PrivOp.idx : PrivOp → Nat
  | .acq i => i
  | .dis i => i

/-- Apply one privilege operation to the shared state. -/
def privStep (s : PrivState) : PrivOp → PrivState
  | .acq i => (uvc_acquire_privileges s i).2
  | .dis i => uvc_dismiss_privileges s i

/-- Run a sequence of privilege operations. -/
def privRun (s : PrivState) : List PrivOp → PrivState
  | [] => s
  | op :: ops => privRun (privStep s op) ops

/-- Initial arbitration state for `n` freshly opened handles: every
handle passive (`uvc_v4l2_open` sets `UVC_HANDLE_PASSIVE`) and the
stream counter zero. -/
def initPriv (n : Nat) : PrivState :=
  { handles := List.replicate n .passive, active := 0 }

/-- Number of handles currently in the active state. -/
def activeCount : List HandleState → Nat
  | [] => 0
  | .active :: t => activeCount t + 1
  | .passive :: t => activeCount t

/-- Arbitration invariant: the stream counter equals the number of
active handles, and at most one handle is active. -/
def PrivInv (s : PrivState) : Prop :=
  s.active = (activeCount s.handles : Int) ∧ activeCount s.handles ≤ 1

instance (s : PrivState) : Decidable (PrivInv s) := by
  unfold PrivInv; infer_instance

/-- Outcomes of the external buffer-queue and still-trigger collaborators
for one ioctl invocation (`uvc_query_buffer`, `uvc_queue_buffer`,
`uvc_dequeue_buffer` on each queue, and `uvc_trigger_still`). -/
structure ExtQueueOps where
  queryMain : Except Unit Unit
  queryStill : Except Unit Unit
  queueMain : Except Unit Unit
  queueStill : Except Unit Unit
  dequeueMain : Except Unit Unit
  dequeueStill : Except Unit Unit
  triggerStill : Except Unit Unit
deriving DecidableEq

/-- The three buffer ioctls routed by `uvc_v4l2_do_ioctl`. -/
inductive BufOp where
  | querybuf
  | qbuf
  | dqbuf
deriving DecidableEq

/-- Propagate an external collaborator outcome as an ioctl result. -/
def extRes : Except Unit Unit → Except UvcErr Unit
  | .error _ => .error .eext
  | .ok _ => .ok ()

/-- Embedding of the VIDIOC_QUERYBUF / VIDIOC_QBUF / VIDIOC_DQBUF cases
of `uvc_v4l2_do_ioctl`.  `isStill` is the still tag of the request
(`IS_STILL_BUF`), `btype` the buffer type carried by a QUERYBUF request.
Returns (result, stream after, handle state after).  Still-tagged
requests go to the still queue with no privilege check; main-queue
requests require the handle to be active and fail `-EBUSY` otherwise;
a still dequeue first triggers a capture and sets
`still_waiting_frame`; a failed still enqueue is reported as
`-ENOMEM`. -/
def uvc_buf_ioctl (ext : ExtQueueOps) (s : UvcStreaming) (h : HandleState)
    (op : BufOp) (isStill : Bool) (btype : Nat) :
    Except UvcErr Unit × UvcStreaming × HandleState :=
  match op with
  | .querybuf =>
    if isStill then (extRes ext.queryStill, s, h)
    else if btype ≠ s.type then (.error .einval, s, h)
    else if h ≠ .active then (.error .ebusy, s, h)
    else (extRes ext.queryMain, s, h)
  | .qbuf =>
    if isStill then
      (match ext.queueStill with
        | .error _ => .error .enomem
        | .ok _ => .ok (), s, h)
    else if h ≠ .active then (.error .ebusy, s, h)
    else (extRes ext.queueMain, s, h)
  | .dqbuf =>
    if isStill then
      match ext.triggerStill with
      | .error _ => (.error .eext, s, h)
      | .ok _ =>
        (extRes ext.dequeueStill,
          { s with still_waiting_frame := true }, h)
    else if h ≠ .active then (.error .ebusy, s, h)
    else (extRes ext.dequeueMain, s, h)

/-- Specification-side scan for the discrete interval case: starting
from a previous entry, stop at the first strict increase of the distance
and return the entry before it; otherwise return the last entry. -/
def scanFrom (r : Nat) (prev : Nat) : List Nat → Nat
  | [] => prev
  | x :: xs => if absDist r x > absDist r prev then prev else scanFrom r x xs

section ListHelpers

variable {α : Type}

theorem getD_set_ne (v d : α) :
    ∀ (l : List α) (i j : Nat), i ≠ j → (l.set i v).getD j d = l.getD j d := by
  intro l
  induction l with
  | nil => intro i j _; rfl
  | cons a t ih =>
    intro i j hij
    cases i with
    | zero =>
      cases j with
      | zero => exact absurd rfl hij
      | succ j => rfl
    | succ i =>
      cases j with
      | zero => rfl
      | succ j =>
        simp only [List.set, List.getD_cons_succ]
        exact ih i j (fun h => hij (by rw [h]))

theorem getD_set_self (v d : α) :
    ∀ (l : List α) (i : Nat), i < l.length → (l.set i v).getD i d = v := by
  intro l
  induction l with
  | nil => intro i h; simp at h
  | cons a t ih =>
    intro i h
    cases i with
    | zero => rfl
    | succ i =>
      simp only [List.set, List.getD_cons_succ]
      exact ih i (by simpa using h)

theorem mem_of_getD (d : α) :
    ∀ (l : List α) (j : Nat), j < l.length → l.getD j d ∈ l := by
  intro l
  induction l with
  | nil => intro j h; simp at h
  | cons a t ih =>
    intro j h
    cases j with
    | zero => simp
    | succ j =>
      simp only [List.getD_cons_succ]
      exact List.mem_cons_of_mem a (ih j (by simpa using h))

theorem getD_out_of_range (d : α) :
    ∀ (l : List α) (j : Nat), l.length ≤ j → l.getD j d = d := by
  intro l
  induction l with
  | nil => intro j _; rfl
  | cons a t ih =>
    intro j h
    cases j with
    | zero => simp at h
    | succ j => simpa only [List.getD_cons_succ] using ih j (by simpa using h)

end ListHelpers

theorem activeCount_cons (a : HandleState) (t : List HandleState) :
    activeCount (a :: t) =
      (if a = .active then 1 else 0) + activeCount t := by
  cases a
  · simp [activeCount]
  · simp [activeCount]
    omega

theorem getD_active_lt_length :
    ∀ (l : List HandleState) (i : Nat),
      l.getD i .passive = .active → i < l.length := by
  intro l i h
  by_contra hlt
  rw [getD_out_of_range _ l i (by omega)] at h
  exact HandleState.noConfusion h

theorem activeCount_pos_of_active :
    ∀ (l : List HandleState) (i : Nat),
      l.getD i .passive = .active → 1 ≤ activeCount l := by
  intro l
  induction l with
  | nil => intro i h; exact absurd h (by cases i <;> simp [List.getD])
  | cons a t ih =>
    intro i h
    cases i with
    | zero =>
      simp only [List.getD_cons_zero] at h
      rw [activeCount_cons, h]; simp
    | succ i =>
      simp only [List.getD_cons_succ] at h
      have := ih i h
      rw [activeCount_cons]; omega

theorem activeCount_set_active :
    ∀ (l : List HandleState) (i : Nat), i < l.length →
      l.getD i .passive = .passive →
      activeCount (l.set i .active) = activeCount l + 1 := by
  intro l
  induction l with
  | nil => intro i h; simp at h
  | cons a t ih =>
    intro i hlen hp
    cases i with
    | zero =>
      simp only [List.getD_cons_zero] at hp
      simp only [List.set]
      rw [activeCount_cons, activeCount_cons, hp]
      simp
      omega
    | succ i =>
      simp only [List.getD_cons_succ] at hp
      simp only [List.set]
      rw [activeCount_cons, activeCount_cons, ih i (by simpa using hlen) hp]
      omega

theorem activeCount_set_passive_of_active :
    ∀ (l : List HandleState) (i : Nat),
      l.getD i .passive = .active →
      activeCount (l.set i .passive) + 1 = activeCount l := by
  intro l
  induction l with
  | nil => intro i h; exact absurd h (by cases i <;> simp [List.getD])
  | cons a t ih =>
    intro i h
    cases i with
    | zero =>
      simp only [List.getD_cons_zero] at h
      simp only [List.set]
      rw [activeCount_cons, activeCount_cons, h]
      simp
      omega
    | succ i =>
      simp only [List.getD_cons_succ] at h
      simp only [List.set]
      rw [activeCount_cons, activeCount_cons]
      have := ih i h
      omega

theorem activeCount_set_passive_of_passive :
    ∀ (l : List HandleState) (i : Nat),
      l.getD i .passive = .passive →
      activeCount (l.set i .passive) = activeCount l := by
  intro l
  induction l with
  | nil => intro i _; rfl
  | cons a t ih =>
    intro i h
    cases i with
    | zero =>
      simp only [List.getD_cons_zero] at h
      simp only [List.set]
      rw [activeCount_cons, activeCount_cons, h]
    | succ i =>
      simp only [List.getD_cons_succ] at h
      simp only [List.set]
      rw [activeCount_cons, activeCount_cons, ih i h]

theorem length_set_eq (v : α) (l : List α) (i : Nat) :
    (l.set i v).length = l.length := by
  simp

theorem handleState_eq_passive (h : HandleState) (hne : h ≠ .active) :
    h = .passive := by
  cases h
  · rfl
  · exact absurd rfl hne

theorem activeCount_replicate_passive (n : Nat) :
    activeCount (List.replicate n .passive) = 0 := by
  induction n with
  | zero => rfl
  | succ n ih => simpa [List.replicate, activeCount] using ih

theorem privInv_acquire (s : PrivState) (i : Nat) (hInv : PrivInv s)
    (hlen : i < s.handles.length) :
    PrivInv (uvc_acquire_privileges s i).2 := by
  obtain ⟨ha, hc⟩ := hInv
  unfold PrivInv
  simp only [uvc_acquire_privileges]
  split_ifs with h1 h2
  · exact ⟨ha, hc⟩
  · constructor
    · simpa using ha
    · exact hc
  · have hp : s.handles.getD i .passive = .passive :=
      handleState_eq_passive _ h1
    have hz : activeCount s.handles = 0 := by omega
    have hset := activeCount_set_active s.handles i hlen hp
    constructor
    · dsimp only
      rw [hset, hz]
      omega
    · dsimp only
      rw [hset, hz]

theorem privInv_dismiss (s : PrivState) (i : Nat) (hInv : PrivInv s) :
    PrivInv (uvc_dismiss_privileges s i) := by
  obtain ⟨ha, hc⟩ := hInv
  unfold PrivInv
  simp only [uvc_dismiss_privileges]
  split_ifs with h1
  · have hpos := activeCount_pos_of_active s.handles i h1
    have hset := activeCount_set_passive_of_active s.handles i h1
    constructor
    · dsimp only
      omega
    · dsimp only
      omega
  · have hp : s.handles.getD i .passive = .passive :=
      handleState_eq_passive _ h1
    have hset := activeCount_set_passive_of_passive s.handles i hp
    constructor
    · dsimp only
      rw [hset]
      exact ha
    · dsimp only
      rw [hset]
      exact hc

theorem privStep_handles_length (s : PrivState) (op : PrivOp) :
    (privStep s op).handles.length = s.handles.length := by
  cases op with
  | acq i =>
    simp only [privStep, uvc_acquire_privileges]
    split_ifs <;> simp
  | dis i =>
    simp only [privStep, uvc_dismiss_privileges]
    simp

theorem privInv_step (s : PrivState) (op : PrivOp) (hInv : PrivInv s)
    (hlen : op.idx < s.handles.length) :
    PrivInv (privStep s op) := by
  cases op with
  | acq i => exact privInv_acquire s i hInv hlen
  | dis i => exact privInv_dismiss s i hInv

theorem privRun_inv :
    ∀ (ops : List PrivOp) (s : PrivState), PrivInv s →
      (∀ op ∈ ops, op.idx < s.handles.length) →
      PrivInv (privRun s ops) := by
  intro ops
  induction ops with
  | nil => intro s hInv _; exact hInv
  | cons op ops ih =>
    intro s hInv hidx
    simp only [privRun]
    refine ih (privStep s op) (privInv_step s op hInv (hidx op (by simp))) ?_
    intro op' hop'
    rw [privStep_handles_length]
    exact hidx op' (List.mem_cons_of_mem op hop')

/-- C1: over every sequence of acquire/dismiss calls by handles of one
stream, the stream's active counter stays 0 or 1 and at most one handle
is in the Active state; acquiring when already active is a no-op
success; acquiring while another handle holds the privilege rolls the
increment back, fails busy, and leaves the caller passive (the whole
state unchanged). -/
theorem claim_C1_exclusivity :
    (∀ (n : Nat) (ops : List PrivOp), (∀ op ∈ ops, op.idx < n) →
      ((privRun (initPriv n) ops).active = 0
          ∨ (privRun (initPriv n) ops).active = 1)
        ∧ activeCount (privRun (initPriv n) ops).handles ≤ 1)
    ∧ (∀ (t : PrivState) (i : Nat),
        t.handles.getD i .passive = .active →
        uvc_acquire_privileges t i = (.ok, t))
    ∧ (∀ (t : PrivState) (i j : Nat), PrivInv t → i ≠ j →
        t.handles.getD j .passive = .active →
        t.handles.getD i .passive = .passive →
        uvc_acquire_privileges t i = (.ebusy, t)) := by
  refine ⟨?_, ?_, ?_⟩
  · intro n ops hidx
    have hInv0 : PrivInv (initPriv n) := by
      constructor
      · simp [initPriv, activeCount_replicate_passive]
      · simp [initPriv, activeCount_replicate_passive]
    have hInv := privRun_inv ops (initPriv n) hInv0 (by
      intro op hop
      simpa [initPriv] using hidx op hop)
    obtain ⟨ha, hc⟩ := hInv
    exact ⟨by omega, hc⟩
  · intro t i hact
    simp only [uvc_acquire_privileges, if_pos hact]
  · intro t i j hInv hij hj hi
    obtain ⟨ha, hc⟩ := hInv
    have hpos := activeCount_pos_of_active t.handles j hj
    have hone : t.active = 1 := by omega
    have hne : t.handles.getD i .passive ≠ HandleState.active := by
      rw [hi]
      intro h
      exact HandleState.noConfusion h
    have h2 : t.active + 1 ≠ 1 := by omega
    simp only [uvc_acquire_privileges, if_neg hne, if_pos h2]
    have hsub : t.active + 1 - 1 = t.active := by omega
    rw [hsub]

/-- Witness for C1 at concrete inputs: a two-handle trace, a no-op
re-acquisition by the active handle, and a busy acquisition by a second
handle while the first is active. -/
theorem claim_C1_exclusivity_witness :
    (((privRun (initPriv 2) [PrivOp.acq 0, PrivOp.acq 1]).active = 0
        ∨ (privRun (initPriv 2) [PrivOp.acq 0, PrivOp.acq 1]).active = 1)
      ∧ activeCount (privRun (initPriv 2) [PrivOp.acq 0, PrivOp.acq 1]).handles ≤ 1)
    ∧ uvc_acquire_privileges
        { handles := [HandleState.active], active := 1 } 0
        = (.ok, { handles := [HandleState.active], active := 1 })
    ∧ uvc_acquire_privileges
        { handles := [HandleState.active, HandleState.passive], active := 1 } 1
        = (.ebusy,
            { handles := [HandleState.active, HandleState.passive], active := 1 }) :=
  ⟨claim_C1_exclusivity.1 2 [PrivOp.acq 0, PrivOp.acq 1] (by decide),
   claim_C1_exclusivity.2.1 _ 0 (by decide),
   claim_C1_exclusivity.2.2 _ 1 0 (by decide) (by decide) (by decide) (by decide)⟩

/-- C7: closing a handle dismisses privilege whatever its state (the
closed handle ends passive and the arbitration invariant is preserved,
so the counter is consistent with the handle no longer holding it), and
when the closing handle held the privilege, another handle whose
acquisition previously failed busy succeeds after the close. -/
theorem claim_C7_release (s : PrivState) (i j : Nat) (hInv : PrivInv s)
    (hij : i ≠ j) :
    (uvc_release_priv s i).handles.getD i .passive = .passive
    ∧ PrivInv (uvc_release_priv s i)
    ∧ (s.handles.getD i .passive = .active →
        s.handles.getD j .passive = .passive →
        (uvc_acquire_privileges s j).1 = .ebusy
        ∧ (uvc_acquire_privileges (uvc_release_priv s i) j).1 = .ok) := by
  refine ⟨?_, ?_, ?_⟩
  · simp only [uvc_release_priv, uvc_dismiss_privileges]
    by_cases hlen : i < s.handles.length
    · exact getD_set_self _ _ s.handles i hlen
    · have hout : (s.handles.set i HandleState.passive).length ≤ i := by
        rw [length_set_eq]
        omega
      rw [getD_out_of_range _ _ i hout]
  · exact privInv_dismiss s i hInv
  · intro hi hj
    obtain ⟨ha, hc⟩ := hInv
    have hpos := activeCount_pos_of_active s.handles i hi
    have hone : s.active = 1 := by omega
    constructor
    · have hne : s.handles.getD j .passive ≠ HandleState.active := by
        rw [hj]
        intro h
        exact HandleState.noConfusion h
      simp only [uvc_acquire_privileges, if_neg hne]
      have h2 : s.active + 1 ≠ 1 := by omega
      rw [if_pos h2]
    · simp only [uvc_release_priv, uvc_dismiss_privileges, if_pos hi]
      have hj2 : (s.handles.set i HandleState.passive).getD j .passive
          = HandleState.passive := by
        rw [getD_set_ne _ _ s.handles i j hij]
        exact hj
      have hne2 : (s.handles.set i HandleState.passive).getD j .passive
          ≠ HandleState.active := by
        rw [hj2]
        intro h
        exact HandleState.noConfusion h
      have h1 : ¬(s.active - 1 + 1 ≠ 1) := by omega
      simp only [uvc_acquire_privileges, if_neg hne2, if_neg h1]

/-- Witness for C7: handle 0 holds the privilege, handle 1 is blocked;
after handle 0 closes, handle 1 acquires successfully. -/
theorem claim_C7_release_witness :
    (uvc_release_priv
        { handles := [HandleState.active, HandleState.passive], active := 1 } 0).handles.getD
        0 .passive = HandleState.passive
    ∧ PrivInv (uvc_release_priv
        { handles := [HandleState.active, HandleState.passive], active := 1 } 0)
    ∧ (uvc_acquire_privileges
        { handles := [HandleState.active, HandleState.passive], active := 1 } 1).1
        = .ebusy
    ∧ (uvc_acquire_privileges (uvc_release_priv
        { handles := [HandleState.active, HandleState.passive], active := 1 } 0) 1).1
        = .ok := by
  have h := claim_C7_release
    { handles := [HandleState.active, HandleState.passive], active := 1 } 0 1
    (by decide) (by decide)
  exact ⟨h.1, h.2.1, (h.2.2 (by decide) (by decide)).1, (h.2.2 (by decide) (by decide)).2⟩

theorem uvc_interval_loop_eq_scanFrom (r : Nat) :
    ∀ (xs : List Nat) (prev : Nat),
      uvc_interval_loop r xs (absDist r prev) prev = scanFrom r prev xs := by
  intro xs
  induction xs with
  | nil => intro prev; rfl
  | cons x xs ih =>
    intro prev
    simp only [uvc_interval_loop, scanFrom]
    split_ifs with h
    · rfl
    · exact ih x

theorem scanFrom_spec (r : Nat) :
    ∀ (xs : List Nat) (prev : Nat),
      ∃ j, j < (prev :: xs).length
        ∧ scanFrom r prev xs = (prev :: xs).getD j 0
        ∧ (∀ i, i < j →
            absDist r ((prev :: xs).getD (i + 1) 0)
              ≤ absDist r ((prev :: xs).getD i 0))
        ∧ (j + 1 = (prev :: xs).length
            ∨ absDist r ((prev :: xs).getD (j + 1) 0)
                > absDist r ((prev :: xs).getD j 0)) := by
  intro xs
  induction xs with
  | nil =>
    intro prev
    refine ⟨0, by simp, rfl, ?_, Or.inl rfl⟩
    intro i hi
    omega
  | cons x xs ih =>
    intro prev
    by_cases h : absDist r x > absDist r prev
    · refine ⟨0, by simp, ?_, ?_, ?_⟩
      · simp only [scanFrom, if_pos h]
        rfl
      · intro i hi
        omega
      · right
        simpa using h
    · obtain ⟨j, hj1, hj2, hj3, hj4⟩ := ih x
      refine ⟨j + 1, ?_, ?_, ?_, ?_⟩
      · simp only [List.length_cons] at hj1 ⊢
        omega
      · simp only [scanFrom, if_neg h, List.getD_cons_succ]
        exact hj2
      · intro i hi
        cases i with
        | zero =>
          simpa using Nat.le_of_not_lt h
        | succ i =>
          have := hj3 i (by omega)
          simpa only [List.getD_cons_succ] using this
      · cases hj4 with
        | inl hl =>
          left
          simp only [List.length_cons] at hl ⊢
          omega
        | inr hr =>
          right
          simpa only [List.getD_cons_succ] using hr

/-- The (640,480) frame of the specification's worked example, with
discrete interval list `[333333, 500000]`. -/
def exFrame640 : UvcFrame :=
  { bFrameIndex := 1, wWidth := 640, wHeight := 480,
    dwDefaultFrameInterval := 333333, bFrameIntervalType := 2,
    dwFrameInterval := [333333, 500000] }

/-- C5: for a non-empty discrete interval list, the selection scans in
order, stops at the first strict increase of the absolute distance to
the request and returns the entry before it (the last entry whose
distance was non-increasing); the result is always an element of the
list (the discrete case never fails), and requesting 400000 against
`[333333, 500000]` yields 333333. -/
theorem claim_C5_discrete_interval :
    (∀ (frame : UvcFrame) (r : Nat),
      frame.bFrameIntervalType ≠ 0 →
      frame.dwFrameInterval ≠ [] →
      List.Pairwise (fun a b => a ≤ b) frame.dwFrameInterval →
      r < U32 →
      (∀ x ∈ frame.dwFrameInterval, x < U32) →
      ∃ j, j < frame.dwFrameInterval.length
        ∧ uvc_try_frame_interval frame r = frame.dwFrameInterval.getD j 0
        ∧ uvc_try_frame_interval frame r ∈ frame.dwFrameInterval
        ∧ (∀ i, i < j →
            absDist r (frame.dwFrameInterval.getD (i + 1) 0)
              ≤ absDist r (frame.dwFrameInterval.getD i 0))
        ∧ (j + 1 = frame.dwFrameInterval.length
            ∨ absDist r (frame.dwFrameInterval.getD (j + 1) 0)
                > absDist r (frame.dwFrameInterval.getD j 0)))
    ∧ uvc_try_frame_interval exFrame640 400000 = 333333 := by
  constructor
  · intro frame r h0 hne _hsort hru hxu
    cases hl : frame.dwFrameInterval with
    | nil => exact absurd hl hne
    | cons x xs =>
      have hx : x < U32 := hxu x (by rw [hl]; simp)
      have hUpos : 0 < U32 := by norm_num [U32]
      have hdx : absDist r x < U32 := by
        unfold absDist
        split_ifs <;> omega
      have hnd : ¬(absDist r x > U32 - 1) := by omega
      have hloop : uvc_try_frame_interval frame r = scanFrom r x xs := by
        unfold uvc_try_frame_interval
        rw [if_pos h0, hl]
        simp only [uvc_interval_loop, if_neg hnd]
        exact uvc_interval_loop_eq_scanFrom r xs x
      obtain ⟨j, hj1, hj2, hj3, hj4⟩ := scanFrom_spec r xs x
      refine ⟨j, hj1, ?_, ?_, hj3, hj4⟩
      · rw [hloop]
        exact hj2
      · rw [hloop, hj2]
        exact mem_of_getD 0 (x :: xs) j hj1
  · decide

/-- Witness for C5: the general discrete-scan theorem applied to the
worked example, request 400000 against `[333333, 500000]`. -/
theorem claim_C5_discrete_interval_witness :
    ∃ j, j < exFrame640.dwFrameInterval.length
      ∧ uvc_try_frame_interval exFrame640 400000
          = exFrame640.dwFrameInterval.getD j 0
      ∧ uvc_try_frame_interval exFrame640 400000 ∈ exFrame640.dwFrameInterval
      ∧ (∀ i, i < j →
          absDist 400000 (exFrame640.dwFrameInterval.getD (i + 1) 0)
            ≤ absDist 400000 (exFrame640.dwFrameInterval.getD i 0))
      ∧ (j + 1 = exFrame640.dwFrameInterval.length
          ∨ absDist 400000 (exFrame640.dwFrameInterval.getD (j + 1) 0)
              > absDist 400000 (exFrame640.dwFrameInterval.getD j 0)) :=
  claim_C5_discrete_interval.1 exFrame640 400000 (by decide) (by decide)
    (by decide) (by decide) (by decide)

/-- C6 corrected: for a stepwise spec `[m, M, s]` with `s ≥ 1`,
`m ≤ M < 2^32`, and a requested interval `r` with `m ≤ r` and no
unsigned overflow (`r + s/2 < 2^32`), the selection returns
`min(M, m + round((r-m)/s)·s)` (round-half-up), which lies in `[m, M]`
and is `m + k·s` for some `k ≥ 0` unless clamped to `M`.  (For `r`
below `m` the unsigned wraparound can produce a value outside `[m, M]`;
see the counterexample.) -/
theorem claim_C6_stepwise (frame : UvcFrame) (m M s r : Nat)
    (htype : frame.bFrameIntervalType = 0)
    (hlist : frame.dwFrameInterval = [m, M, s])
    (hs : 1 ≤ s) (hmM : m ≤ M) (hMu : M < U32)
    (hmr : m ≤ r) (hru : r + s / 2 < U32) :
    uvc_try_frame_interval frame r
      = Nat.min M (m + (r - m + s / 2) / s * s)
    ∧ m ≤ uvc_try_frame_interval frame r
    ∧ uvc_try_frame_interval frame r ≤ M
    ∧ (uvc_try_frame_interval frame r = M
        ∨ ∃ k, uvc_try_frame_interval frame r = m + k * s) := by
  simp only [U32] at hMu hru
  have hcond : ¬(frame.bFrameIntervalType ≠ 0) := by simp [htype]
  have ht1 : u32sub r m = r - m := by
    simp only [u32sub, U32]
    omega
  have ht2 : u32add (r - m) (s / 2) = r - m + s / 2 := by
    simp only [u32add, U32]
    omega
  have hqs : (r - m + s / 2) / s * s ≤ r - m + s / 2 :=
    Nat.div_mul_le_self _ _
  have ht3 : u32mul ((r - m + s / 2) / s) s = (r - m + s / 2) / s * s := by
    simp only [u32mul, U32]
    omega
  have ht4 : u32add m ((r - m + s / 2) / s * s)
      = m + (r - m + s / 2) / s * s := by
    simp only [u32add, U32]
    omega
  have hres : uvc_try_frame_interval frame r
      = if m + (r - m + s / 2) / s * s > M then M
        else m + (r - m + s / 2) / s * s := by
    unfold uvc_try_frame_interval
    rw [if_neg hcond, hlist]
    simp only [List.getD_cons_zero, List.getD_cons_succ]
    rw [ht1, ht2, ht3, ht4]
  rw [hres]
  split_ifs with hgt
  · refine ⟨?_, hmM, Nat.le_refl M, Or.inl rfl⟩
    exact (Nat.min_eq_left (by omega)).symm
  · refine ⟨?_, by omega, by omega, Or.inr ⟨(r - m + s / 2) / s, rfl⟩⟩
    exact (Nat.min_eq_right (by omega)).symm

/-- Witness for C6: stepwise spec min 1000, max 2000, step 100 with
request 1540 rounds to 1500 and stays within the range. -/
theorem claim_C6_stepwise_witness :
    uvc_try_frame_interval
      { bFrameIndex := 1, wWidth := 640, wHeight := 480,
        dwDefaultFrameInterval := 1000, bFrameIntervalType := 0,
        dwFrameInterval := [1000, 2000, 100] } 1540
      = Nat.min 2000 (1000 + (1540 - 1000 + 100 / 2) / 100 * 100)
    ∧ 1000 ≤ uvc_try_frame_interval
        { bFrameIndex := 1, wWidth := 640, wHeight := 480,
          dwDefaultFrameInterval := 1000, bFrameIntervalType := 0,
          dwFrameInterval := [1000, 2000, 100] } 1540
    ∧ uvc_try_frame_interval
        { bFrameIndex := 1, wWidth := 640, wHeight := 480,
          dwDefaultFrameInterval := 1000, bFrameIntervalType := 0,
          dwFrameInterval := [1000, 2000, 100] } 1540 ≤ 2000
    ∧ (uvc_try_frame_interval
        { bFrameIndex := 1, wWidth := 640, wHeight := 480,
          dwDefaultFrameInterval := 1000, bFrameIntervalType := 0,
          dwFrameInterval := [1000, 2000, 100] } 1540 = 2000
      ∨ ∃ k, uvc_try_frame_interval
          { bFrameIndex := 1, wWidth := 640, wHeight := 480,
            dwDefaultFrameInterval := 1000, bFrameIntervalType := 0,
            dwFrameInterval := [1000, 2000, 100] } 1540 = 1000 + k * 100) :=
  claim_C6_stepwise _ 1000 2000 100 1540 rfl rfl (by decide) (by decide)
    (by decide) (by decide) (by decide)

/-- Counterexample to C6 as stated: against the stepwise spec
min 1000, max 2000, step 100, the requested interval 0 (below min, as
the claim's "including values below m" allows) wraps around in unsigned
arithmetic and returns 4, which is outside `[1000, 2000]` — refuting
that the returned value always lies within `[m, M]`. -/
theorem claim_C6_counterexample :
    uvc_try_frame_interval
      { bFrameIndex := 1, wWidth := 640, wHeight := 480,
        dwDefaultFrameInterval := 1000, bFrameIntervalType := 0,
        dwFrameInterval := [1000, 2000, 100] } 0 = 4
    ∧ (4 : Nat) < 1000 := by
  constructor
  · decide
  · decide

theorem natMin_eq_left (w a : Nat) (h : w ≤ a) : Nat.min w a = w :=
  Nat.min_eq_left h

theorem natMin_eq_right (w a : Nat) (h : a ≤ w) : Nat.min w a = a :=
  Nat.min_eq_right h

theorem natMin_le_left (w a : Nat) : Nat.min w a ≤ w :=
  Nat.min_le_left w a

theorem natMin_le_right (w a : Nat) : Nat.min w a ≤ a :=
  Nat.min_le_right w a

theorem natMin_self (w : Nat) : Nat.min w w = w :=
  Nat.min_self w

theorem two_min_le (w h a b : Nat) :
    2 * (Nat.min w a * Nat.min h b) ≤ w * h + a * b := by
  have hm1 : Nat.min w a * Nat.min h b ≤ w * h :=
    Nat.mul_le_mul (natMin_le_left w a) (natMin_le_left h b)
  have hm2 : Nat.min w a * Nat.min h b ≤ a * b :=
    Nat.mul_le_mul (natMin_le_right w a) (natMin_le_right h b)
  omega

theorem mathDist_le_sq (w h a b : Nat)
    (hw : w ≤ 65535) (hh : h ≤ 65535) (ha : a ≤ 65535) (hb : b ≤ 65535) :
    mathDist w h a b ≤ 65535 * 65535 := by
  unfold mathDist
  rcases Nat.le_total w a with h1 | h1 <;> rcases Nat.le_total h b with h2 | h2
  · rw [natMin_eq_left _ _ h1, natMin_eq_left _ _ h2]
    have hab : a * b ≤ 65535 * 65535 := Nat.mul_le_mul ha hb
    omega
  · rw [natMin_eq_left _ _ h1, natMin_eq_right _ _ h2]
    have key : w * h + a * b ≤ 65535 * 65535 + 2 * (w * b) := by
      zify
      nlinarith [mul_nonneg (by linarith : (0:ℤ) ≤ 65535 - (h:ℤ))
          (by linarith : (0:ℤ) ≤ (65535:ℤ)),
        mul_nonneg (by linarith : (0:ℤ) ≤ 65535 - (w:ℤ))
          (by linarith : (0:ℤ) ≤ (h:ℤ) - (b:ℤ)),
        mul_nonneg (by linarith : (0:ℤ) ≤ (b:ℤ))
          (by linarith : (0:ℤ) ≤ 65535 - (a:ℤ)),
        mul_nonneg (by linarith : (0:ℤ) ≤ (w:ℤ))
          (by linarith : (0:ℤ) ≤ (b:ℤ))]
    omega
  · rw [natMin_eq_right _ _ h1, natMin_eq_left _ _ h2]
    have key : w * h + a * b ≤ 65535 * 65535 + 2 * (a * h) := by
      zify
      nlinarith [mul_nonneg (by linarith : (0:ℤ) ≤ 65535 - (b:ℤ))
          (by linarith : (0:ℤ) ≤ (65535:ℤ)),
        mul_nonneg (by linarith : (0:ℤ) ≤ 65535 - (a:ℤ))
          (by linarith : (0:ℤ) ≤ (b:ℤ) - (h:ℤ)),
        mul_nonneg (by linarith : (0:ℤ) ≤ (h:ℤ))
          (by linarith : (0:ℤ) ≤ 65535 - (w:ℤ)),
        mul_nonneg (by linarith : (0:ℤ) ≤ (a:ℤ))
          (by linarith : (0:ℤ) ≤ (h:ℤ))]
    omega
  · rw [natMin_eq_right _ _ h1, natMin_eq_right _ _ h2]
    have hwh : w * h ≤ 65535 * 65535 := Nat.mul_le_mul hw hh
    omega

theorem uvc_frame_dist_eq_mathDist (w h a b : Nat)
    (hw : w < 65536) (hh : h < 65536) (ha : a < 65536) (hb : b < 65536) :
    uvc_frame_dist w h a b = mathDist w h a b := by
  have hp : w * h ≤ 65535 * 65535 := Nat.mul_le_mul (by omega) (by omega)
  have hq : a * b ≤ 65535 * 65535 := Nat.mul_le_mul (by omega) (by omega)
  have hm1 : Nat.min w a * Nat.min h b ≤ w * h :=
    Nat.mul_le_mul (natMin_le_left w a) (natMin_le_left h b)
  have hm2 : Nat.min w a * Nat.min h b ≤ a * b :=
    Nat.mul_le_mul (natMin_le_right w a) (natMin_le_right h b)
  have hd := mathDist_le_sq w h a b (by omega) (by omega) (by omega) (by omega)
  simp only [mathDist] at hd
  simp only [uvc_frame_dist, mathDist, u32add, u32sub, u32mul, U32]
  generalize hgm : Nat.min w a * Nat.min h b = m at *
  generalize hgp : w * h = p at *
  generalize hgq : a * b = q at *
  omega

theorem mathDist_self (w h : Nat) : mathDist w h w h = 0 := by
  unfold mathDist
  rw [natMin_self w, natMin_self h]
  omega

theorem mathDist_eq_zero (w h a b : Nat)
    (hw : 1 ≤ w) (hh : 1 ≤ h) (ha : 1 ≤ a) (hb : 1 ≤ b)
    (hz : mathDist w h a b = 0) : w = a ∧ h = b := by
  have hm1 : Nat.min w a * Nat.min h b ≤ w * h :=
    Nat.mul_le_mul (natMin_le_left w a) (natMin_le_left h b)
  have hm2 : Nat.min w a * Nat.min h b ≤ a * b :=
    Nat.mul_le_mul (natMin_le_right w a) (natMin_le_right h b)
  simp only [mathDist] at hz
  have heq1 : w * h = Nat.min w a * Nat.min h b := by omega
  have heq2 : a * b = Nat.min w a * Nat.min h b := by omega
  rcases Nat.le_total w a with h1 | h1 <;> rcases Nat.le_total h b with h2 | h2
  · rw [natMin_eq_left _ _ h1, natMin_eq_left _ _ h2] at heq2
    have hle1 : w * h ≤ a * h := Nat.mul_le_mul_right h h1
    have hle2 : a * h ≤ a * b := Nat.mul_le_mul_left a h2
    have hah : a * h = a * b := by omega
    have hwh : w * h = a * h := by omega
    exact ⟨Nat.eq_of_mul_eq_mul_right (by omega) hwh,
      Nat.eq_of_mul_eq_mul_left (by omega) hah⟩
  · rw [natMin_eq_left _ _ h1, natMin_eq_right _ _ h2] at heq1 heq2
    have hhb : h = b := Nat.eq_of_mul_eq_mul_left (by omega) heq1
    have hwa : a = w := Nat.eq_of_mul_eq_mul_right (by omega) heq2
    exact ⟨hwa.symm, hhb⟩
  · rw [natMin_eq_right _ _ h1, natMin_eq_left _ _ h2] at heq1 heq2
    have hwa : w = a := Nat.eq_of_mul_eq_mul_right (by omega) heq1
    have hbh : b = h := Nat.eq_of_mul_eq_mul_left (by omega) heq2
    exact ⟨hwa, hbh.symm⟩
  · rw [natMin_eq_right _ _ h1, natMin_eq_right _ _ h2] at heq1
    have hle1 : a * b ≤ w * b := Nat.mul_le_mul_right b h1
    have hle2 : w * b ≤ w * h := Nat.mul_le_mul_left w h2
    have hwb : w * b = w * h := by omega
    have hab : a * b = w * b := by omega
    exact ⟨(Nat.eq_of_mul_eq_mul_right (by omega) hab).symm,
      (Nat.eq_of_mul_eq_mul_left (by omega) hwb).symm⟩

theorem uvc_find_frame_loop_cons (rw rh : Nat) (f : UvcFrame)
    (fs : List UvcFrame) (maxd : Nat) (best : Option UvcFrame) :
    uvc_find_frame_loop rw rh (f :: fs) maxd best =
      if (if uvc_frame_dist f.wWidth f.wHeight rw rh < maxd
            then uvc_frame_dist f.wWidth f.wHeight rw rh else maxd) = 0
      then (if uvc_frame_dist f.wWidth f.wHeight rw rh < maxd
            then some f else best)
      else uvc_find_frame_loop rw rh fs
        (if uvc_frame_dist f.wWidth f.wHeight rw rh < maxd
          then uvc_frame_dist f.wWidth f.wHeight rw rh else maxd)
        (if uvc_frame_dist f.wWidth f.wHeight rw rh < maxd
          then some f else best) := rfl

theorem uvc_find_frame_loop_spec (rw rh : Nat) :
    ∀ (l : List UvcFrame) (maxd : Nat) (best : Option UvcFrame),
      (uvc_find_frame_loop rw rh l maxd best = best
        ∧ ∀ g ∈ l, maxd ≤ uvc_frame_dist g.wWidth g.wHeight rw rh)
      ∨ (∃ l1 f l2, l = l1 ++ f :: l2
          ∧ uvc_find_frame_loop rw rh l maxd best = some f
          ∧ uvc_frame_dist f.wWidth f.wHeight rw rh < maxd
          ∧ (∀ g ∈ l1, uvc_frame_dist f.wWidth f.wHeight rw rh
              < uvc_frame_dist g.wWidth g.wHeight rw rh)
          ∧ (∀ g ∈ l2, uvc_frame_dist f.wWidth f.wHeight rw rh
              ≤ uvc_frame_dist g.wWidth g.wHeight rw rh)) := by
  intro l
  induction l with
  | nil =>
    intro maxd best
    left
    exact ⟨rfl, by simp⟩
  | cons f fs ih =>
    intro maxd best
    rw [uvc_find_frame_loop_cons]
    by_cases hlt : uvc_frame_dist f.wWidth f.wHeight rw rh < maxd
    · rw [if_pos hlt, if_pos hlt]
      by_cases hz : uvc_frame_dist f.wWidth f.wHeight rw rh = 0
      · rw [if_pos hz]
        right
        refine ⟨[], f, fs, by simp, rfl, hlt, by simp, ?_⟩
        intro g _
        rw [hz]
        exact Nat.zero_le _
      · rw [if_neg hz]
        rcases ih (uvc_frame_dist f.wWidth f.wHeight rw rh) (some f) with
          ⟨hres, hall⟩ | ⟨l1, f', l2, hsplit, hres, hflt, hpre, hsuf⟩
        · right
          exact ⟨[], f, fs, by simp, hres, hlt, by simp, hall⟩
        · right
          refine ⟨f :: l1, f', l2, by simp [hsplit], hres,
            Nat.lt_trans hflt hlt, ?_, hsuf⟩
          intro g hg
          rcases List.mem_cons.1 hg with hg1 | hg2
          · rw [hg1]
            exact hflt
          · exact hpre g hg2
    · rw [if_neg hlt, if_neg hlt]
      by_cases hz : maxd = 0
      · rw [if_pos hz]
        left
        refine ⟨rfl, ?_⟩
        intro g _
        rw [hz]
        exact Nat.zero_le _
      · rw [if_neg hz]
        rcases ih maxd best with
          ⟨hres, hall⟩ | ⟨l1, f', l2, hsplit, hres, hflt, hpre, hsuf⟩
        · left
          refine ⟨hres, ?_⟩
          intro g hg
          rcases List.mem_cons.1 hg with hg1 | hg2
          · rw [hg1]
            omega
          · exact hall g hg2
        · right
          refine ⟨f :: l1, f', l2, by simp [hsplit], hres, hflt, ?_, hsuf⟩
          intro g hg
          rcases List.mem_cons.1 hg with hg1 | hg2
          · rw [hg1]
            omega
          · exact hpre g hg2

/-- C4: frame-size selection returns the frame minimizing the overlap
distance, the first frame encountered wins ties, an exact-size match
always wins regardless of list order (for positive dimensions), the
selection is deterministic (it is a pure function of its inputs, so
repeated calls agree), and it fails — returns no frame — exactly when
the format's frame list is empty.  The short-circuit at distance zero is
part of the embedded definition and does not change the selected frame.
Dimensions are bounded by 2^16 as they are `__u16` values in the
source. -/
theorem claim_C4_frame_selection :
    (∀ (format : UvcFormat) (rw rh : Nat),
      rw < 65536 → rh < 65536 →
      (∀ g ∈ format.frame, g.wWidth < 65536 ∧ g.wHeight < 65536) →
      ((uvc_find_frame format rw rh = none ↔ format.frame = [])
        ∧ (∀ f, uvc_find_frame format rw rh = some f →
            f ∈ format.frame
            ∧ (∀ g ∈ format.frame,
                mathDist f.wWidth f.wHeight rw rh
                  ≤ mathDist g.wWidth g.wHeight rw rh)
            ∧ (∃ l1 l2, format.frame = l1 ++ f :: l2
                ∧ ∀ g ∈ l1, mathDist f.wWidth f.wHeight rw rh
                    < mathDist g.wWidth g.wHeight rw rh)
            ∧ (1 ≤ rw → 1 ≤ rh →
                (∀ g ∈ format.frame, 1 ≤ g.wWidth ∧ 1 ≤ g.wHeight) →
                (∃ g ∈ format.frame, g.wWidth = rw ∧ g.wHeight = rh) →
                f.wWidth = rw ∧ f.wHeight = rh))))
    ∧ (∀ (format : UvcFormat) (rw rh : Nat),
        uvc_find_frame format rw rh = uvc_find_frame format rw rh) := by
  constructor
  · intro format rw rh hrw hrh hfr
    have hbound : ∀ g ∈ format.frame,
        uvc_frame_dist g.wWidth g.wHeight rw rh
          = mathDist g.wWidth g.wHeight rw rh
        ∧ mathDist g.wWidth g.wHeight rw rh ≤ 65535 * 65535 := by
      intro g hg
      obtain ⟨hgw, hgh⟩ := hfr g hg
      exact ⟨uvc_frame_dist_eq_mathDist _ _ _ _ hgw hgh hrw hrh,
        mathDist_le_sq _ _ _ _ (by omega) (by omega) (by omega) (by omega)⟩
    have hspec := uvc_find_frame_loop_spec rw rh format.frame (U32 - 1) none
    constructor
    · constructor
      · intro hnone
        rcases hspec with ⟨hres, hall⟩ | ⟨l1, f, l2, hsplit, hres, hflt, hpre, hsuf⟩
        · cases hfl : format.frame with
          | nil => rfl
          | cons g gs =>
            exfalso
            have hg : g ∈ format.frame := by
              rw [hfl]
              simp
            have hU := hall g hg
            obtain ⟨heq, hle⟩ := hbound g hg
            rw [heq] at hU
            have hlarge : (65535 * 65535 : Nat) < U32 - 1 := by norm_num [U32]
            omega
        · rw [uvc_find_frame, hres] at hnone
          exact Option.noConfusion hnone
      · intro hempty
        rw [uvc_find_frame, hempty]
        rfl
    · intro f hf
      rcases hspec with ⟨hres, hall⟩ | ⟨l1, f', l2, hsplit, hres, hflt, hpre, hsuf⟩
      · rw [uvc_find_frame, hres] at hf
        exact Option.noConfusion hf
      · rw [uvc_find_frame, hres] at hf
        have hff : f' = f := Option.some.inj hf
        subst hff
        have hfmem : f' ∈ format.frame := by
          rw [hsplit]
          simp
      -- minimality over the whole list, in the specification's distance
        have hmin : ∀ g ∈ format.frame,
            mathDist f'.wWidth f'.wHeight rw rh
              ≤ mathDist g.wWidth g.wHeight rw rh := by
          intro g hg
          have hgsplit := hg
          rw [hsplit] at hgsplit
          obtain ⟨heqf, -⟩ := hbound f' hfmem
          obtain ⟨heqg, -⟩ := hbound g hg
          rw [← heqf, ← heqg]
          rcases List.mem_append.1 hgsplit with hg1 | hg2
          · exact Nat.le_of_lt (hpre g hg1)
          · rcases List.mem_cons.1 hg2 with hg3 | hg4
            · rw [hg3]
            · exact hsuf g hg4
        refine ⟨hfmem, hmin, ?_, ?_⟩
        · refine ⟨l1, l2, hsplit, ?_⟩
          intro g hg1
          have hg : g ∈ format.frame := by
            rw [hsplit]
            simp [hg1]
          obtain ⟨heqf, -⟩ := hbound f' hfmem
          obtain ⟨heqg, -⟩ := hbound g hg
          rw [← heqf, ← heqg]
          exact hpre g hg1
        · intro h1 h2 hpos hex
          obtain ⟨g, hg, hgw, hgh⟩ := hex
          have hzero : mathDist g.wWidth g.wHeight rw rh = 0 := by
            rw [hgw, hgh]
            exact mathDist_self rw rh
          have hle0 := hmin g hg
          rw [hzero] at hle0
          have hfz : mathDist f'.wWidth f'.wHeight rw rh = 0 := by omega
          obtain ⟨hfw, hfh⟩ := hpos f' hfmem
          exact mathDist_eq_zero _ _ _ _ hfw hfh h1 h2 hfz
  · intro format rw rh
    rfl

/-- The 1280x720 frame of the worked example. -/
def frame1280 : UvcFrame :=
  { bFrameIndex := 2, wWidth := 1280, wHeight := 720,
    dwDefaultFrameInterval := 500000, bFrameIntervalType := 1,
    dwFrameInterval := [500000] }

/-- The single-format capability table of the worked example
(fourcc YUYV). -/
def exFormat : UvcFormat :=
  { fcc := 1448695129, index := 1, bpp := 16, colorspace := 8,
    frame := [exFrame640, frame1280], still_frame := [] }

/-- Witness for C4: requesting 700x480 against the worked-example table
selects the 640x480 frame, whose distance is minimal. -/
theorem claim_C4_frame_selection_witness :
    uvc_find_frame exFormat 700 480 = some exFrame640
    ∧ mathDist exFrame640.wWidth exFrame640.wHeight 700 480
        ≤ mathDist frame1280.wWidth frame1280.wHeight 700 480 := by
  have h := (claim_C4_frame_selection.1 exFormat 700 480 (by decide) (by decide)
    (by decide)).2 exFrame640 (by decide)
  exact ⟨by decide, h.2.1 frame1280 (by decide)⟩

theorem uvc_v4l2_try_format_error_snd (pf : ProbeFn) (s : UvcStreaming)
    (fmt : V4l2Format) (e : UvcErr) (f : V4l2Format)
    (h : uvc_v4l2_try_format pf s fmt = (.error e, f)) : f = fmt := by
  unfold uvc_v4l2_try_format at h
  split at h
  · injection h with h1 h2
    exact h2.symm
  · split at h
    · injection h with h1 h2
      exact h2.symm
    · split at h
      · injection h with h1 h2
        exact h2.symm
      · split at h
        · injection h with h1 h2
          exact h2.symm
        · injection h with h1 h2
          exact Except.noConfusion h1

theorem uvc_v4l2_try_format_ok (pf : ProbeFn) (s : UvcStreaming)
    (fmt : V4l2Format) (p : UvcStreamingControl) (fo : UvcFormat)
    (fr : UvcFrame) (f : V4l2Format)
    (h : uvc_v4l2_try_format pf s fmt = (.ok (p, fo, fr), f)) :
    s.format.find? (fun g => g.fcc == fmt.pix.pixelformat) = some fo
    ∧ f = { fmt with pix :=
        { fmt.pix with
          width := fr.wWidth, height := fr.wHeight, field := 1,
          bytesperline := fo.bpp * fr.wWidth / 8,
          sizeimage := p.dwMaxVideoFrameSize,
          colorspace := fo.colorspace, priv := 0 } } := by
  unfold uvc_v4l2_try_format at h
  split at h
  · injection h with h1 h2
    exact Except.noConfusion h1
  · split at h
    · injection h with h1 h2
      exact Except.noConfusion h1
    · split at h
      · injection h with h1 h2
        exact Except.noConfusion h1
      · split at h
        · injection h with h1 h2
          exact Except.noConfusion h1
        · injection h with h1 h2
          have h3 := Except.ok.inj h1
          injection h3 with hp h4
          injection h4 with hfo hfr
          subst hp
          subst hfo
          subst hfr
          subst h2
          exact ⟨by assumption, rfl⟩

/-- C10: on every successful TryFormat call, the caller's format
descriptor is overwritten with the negotiated result — width and height
become the selected frame's dimensions, sizeimage becomes the max video
frame size returned by the probe, bytesperline is the matched format's
bits-per-pixel times the frame width divided by 8, colorspace is taken
from the matched format (field becomes NONE and priv zero, while the
pixel format code and type are untouched) — and on every failing call
(type mismatch, unsupported format, no frame, or probe rejection) the
descriptor is returned exactly as the caller supplied it. -/
theorem claim_C10_descriptor_effect (pf : ProbeFn) (s : UvcStreaming)
    (fmt : V4l2Format) :
    match uvc_v4l2_try_format pf s fmt with
    | (.error _, f) => f = fmt
    | (.ok (p, fo, fr), f) =>
        f.pix.width = fr.wWidth
        ∧ f.pix.height = fr.wHeight
        ∧ f.pix.sizeimage = p.dwMaxVideoFrameSize
        ∧ f.pix.bytesperline = fo.bpp * fr.wWidth / 8
        ∧ f.pix.colorspace = fo.colorspace
        ∧ f.pix.field = 1
        ∧ f.pix.priv = 0
        ∧ f.pix.pixelformat = fmt.pix.pixelformat
        ∧ f.type = fmt.type
        ∧ fo ∈ s.format
        ∧ fo.fcc = fmt.pix.pixelformat := by
  rcases hres : uvc_v4l2_try_format pf s fmt with ⟨res, f⟩
  cases res with
  | error e =>
    exact uvc_v4l2_try_format_error_snd pf s fmt e f hres
  | ok t =>
    obtain ⟨p, fo, fr⟩ := t
    obtain ⟨hfind, hf⟩ := uvc_v4l2_try_format_ok pf s fmt p fo fr f hres
    subst hf
    refine ⟨rfl, rfl, rfl, rfl, rfl, rfl, rfl, rfl, rfl, ?_, ?_⟩
    · exact List.mem_of_find?_eq_some hfind
    · have := List.find?_some hfind
      simpa using this

/-- Device probe outcome that accepts every candidate unchanged. -/
def probeAccept : ProbeFn := fun p => .ok p

/-- Device probe outcome that rejects every candidate. -/
def probeReject : ProbeFn := fun _ => .error ()

/-- A freshly initialized stream with the worked-example capability
table: nothing committed, no buffers, no still activity. -/
def sBase : UvcStreaming :=
  { type := 1, format := [exFormat], ctrl := zeroControl,
    cur_format := none, cur_frame := none,
    quirk_probe_extrafields := false, quirk_reduce_mem := false,
    queue_allocated := false, queue_streaming := false,
    still_ctrl := zeroControl, still_format := none,
    still_frame_sel := none, still_img_configed := false,
    still_decoding := false, still_waiting_frame := false,
    still_queue_allocated := false }

/-- The base stream with buffers allocated on the main queue. -/
def sAlloc : UvcStreaming := { sBase with queue_allocated := true }

/-- A stream with buffers allocated and an empty capability table, so
every negotiation fails. -/
def sAllocEmptyTable : UvcStreaming :=
  { sBase with format := [], queue_allocated := true }

/-- The base stream with the main queue streaming. -/
def sStreaming : UvcStreaming := { sBase with queue_streaming := true }

/-- A 640x480 request for the worked-example pixel format. -/
def fmt640 : V4l2Format :=
  { type := 1, pix :=
    { pixelformat := 1448695129, width := 640, height := 480, field := 0,
      bytesperline := 0, sizeimage := 0, colorspace := 0, priv := 0 } }

/-- Counterexample to C2 as stated: with buffers allocated on the main
queue but a pixel format absent from the capability table, SetFormat
returns the negotiation error (invalid argument), not Busy — refuting
"fails Busy whenever the main queue reports buffers allocated,
regardless of negotiation success". -/
theorem claim_C2_counterexample :
    uvc_v4l2_set_format probeAccept sAllocEmptyTable fmt640
      = (.error .einval, sAllocEmptyTable, fmt640)
    ∧ sAllocEmptyTable.queue_allocated = true
    ∧ UvcErr.einval ≠ UvcErr.ebusy := by
  refine ⟨by decide, by decide, by decide⟩

/-- C2 corrected: SetFormat commits a new main configuration (control
parameters, current format, current frame) only when negotiation
succeeded and the main queue has no allocated buffers; it fails Busy
when negotiation succeeds while buffers are allocated (when negotiation
fails, the negotiation error is returned instead, even with buffers
allocated); and whenever SetFormat or SetStreamParams returns an error,
the stream's committed configuration after the call equals its
configuration before the call. -/
theorem claim_C2_no_partial_commit :
    (∀ (pf : ProbeFn) (s : UvcStreaming) (fmt : V4l2Format)
        (p : UvcStreamingControl) (fo : UvcFormat) (fr : UvcFrame)
        (f : V4l2Format),
      uvc_v4l2_try_format pf s fmt = (.ok (p, fo, fr), f) →
      s.queue_allocated = true →
      uvc_v4l2_set_format pf s fmt = (.error .ebusy, s, f))
    ∧ (∀ (pf : ProbeFn) (s : UvcStreaming) (fmt : V4l2Format)
        (e : UvcErr) (s2 : UvcStreaming) (f : V4l2Format),
        uvc_v4l2_set_format pf s fmt = (.error e, s2, f) →
        mainConfig s2 = mainConfig s)
    ∧ (∀ (pf : ProbeFn) (s : UvcStreaming) (fmt : V4l2Format)
        (s2 : UvcStreaming) (f : V4l2Format),
        uvc_v4l2_set_format pf s fmt = (.ok (), s2, f) →
        s.queue_allocated = false
        ∧ ∃ p fo fr, uvc_v4l2_try_format pf s fmt = (.ok (p, fo, fr), f)
            ∧ s2 = commitMain s p fo fr)
    ∧ (∀ (pf : ProbeFn) (s : UvcStreaming) (pt iv : Nat) (e : UvcErr)
        (s2 : UvcStreaming),
        uvc_v4l2_set_streamparm pf s pt iv = (.err e, s2) →
        mainConfig s2 = mainConfig s) := by
  refine ⟨?_, ?_, ?_, ?_⟩
  · intro pf s fmt p fo fr f htry halloc
    unfold uvc_v4l2_set_format
    split_ifs with h1
    · exfalso
      have hcontra : uvc_v4l2_try_format pf s fmt = (.error .einval, fmt) := by
        unfold uvc_v4l2_try_format
        rw [if_pos h1]
      rw [hcontra] at htry
      injection htry with h2 h3
      exact Except.noConfusion h2
    · rw [htry]
  · intro pf s fmt e s2 f h
    unfold uvc_v4l2_set_format at h
    split at h
    · injection h with h1 h2
      injection h2 with h3 h4
      rw [h3]
    · split at h
      · injection h with h1 h2
        injection h2 with h3 h4
        rw [h3]
      · split at h
        · injection h with h1 h2
          injection h2 with h3 h4
          rw [h3]
        · injection h with h1 h2
          exact Except.noConfusion h1
  · intro pf s fmt s2 f h
    unfold uvc_v4l2_set_format at h
    split at h
    · injection h with h1 h2
      exact Except.noConfusion h1
    · split at h
      · injection h with h1 h2
        exact Except.noConfusion h1
      · split at h
        · injection h with h1 h2
          exact Except.noConfusion h1
        · rename_i res p1 fo1 fr1 f2 heq hq
          injection h with h1 h2
          injection h2 with h3 h4
          refine ⟨by simpa using hq, ?_⟩
          exact ⟨p1, fo1, fr1, by rw [heq, h4], h3.symm⟩
  · intro pf s pt iv e s2 h
    unfold uvc_v4l2_set_streamparm at h
    split at h
    · injection h with h1 h2
      rw [h2]
    · split at h
      · injection h with h1 h2
        rw [h2]
      · split at h
        · injection h with h1 h2
          exact SPRes.noConfusion h1
        · split at h
          · injection h with h1 h2
            rw [h2]
          · injection h with h1 h2
            exact SPRes.noConfusion h1

/-- Witness for the corrected C2: a successful negotiation against an
allocated queue fails busy leaving the stream intact; an erroring
SetFormat and an erroring SetStreamParams leave the committed
configuration unchanged; a successful SetFormat commits exactly the
negotiated configuration. -/
theorem claim_C2_no_partial_commit_witness :
    uvc_v4l2_set_format probeAccept sAlloc fmt640
      = (.error .ebusy, sAlloc,
          (uvc_v4l2_try_format probeAccept sAlloc fmt640).2)
    ∧ mainConfig sAlloc = mainConfig sAlloc
    ∧ (sBase.queue_allocated = false
        ∧ ∃ p fo fr,
            uvc_v4l2_try_format probeAccept sBase fmt640
              = (.ok (p, fo, fr),
                  (uvc_v4l2_set_format probeAccept sBase fmt640).2.2)
            ∧ (uvc_v4l2_set_format probeAccept sBase fmt640).2.1
                = commitMain sBase p fo fr)
    ∧ mainConfig sStreaming = mainConfig sStreaming := by
  refine ⟨?_, ?_, ?_, ?_⟩
  · exact claim_C2_no_partial_commit.1 probeAccept sAlloc fmt640
      (candidateProbe sAlloc exFormat exFrame640) exFormat exFrame640
      (uvc_v4l2_try_format probeAccept sAlloc fmt640).2 (by decide) (by decide)
  · exact claim_C2_no_partial_commit.2.1 probeAccept sAlloc fmt640 .ebusy
      sAlloc (uvc_v4l2_try_format probeAccept sAlloc fmt640).2 (by decide)
  · exact claim_C2_no_partial_commit.2.2.1 probeAccept sBase fmt640
      (uvc_v4l2_set_format probeAccept sBase fmt640).2.1
      (uvc_v4l2_set_format probeAccept sBase fmt640).2.2 (by decide)
  · exact claim_C2_no_partial_commit.2.2.2 probeAccept sStreaming 1 0 .ebusy
      sStreaming (by decide)

/-- Committed still-pipeline configuration of a stream. -/
def stillConfig (s : UvcStreaming) :
    UvcStreamingControl × Option UvcFormat × Option UvcFrame :=
  (s.still_ctrl, s.still_format, s.still_frame_sel)

/-- The base stream with a still configuration committed and still-queue
buffers allocated. -/
def sStillCfg : UvcStreaming :=
  { sBase with still_img_configed := true, still_queue_allocated := true }

/-- A format offering one 800x600 still size. -/
def stillFormat : UvcFormat :=
  { fcc := 1448695129, index := 1, bpp := 16, colorspace := 8,
    frame := [exFrame640],
    still_frame := [{ wWidth := 800, wHeight := 600 }] }

/-- A stream whose capability table carries the still-capable format. -/
def sStillMatch : UvcStreaming := { sBase with format := [stillFormat] }

/-- An 800x600 still request for the still-capable format. -/
def fmtStill : V4l2Format :=
  { type := 1, pix :=
    { pixelformat := 1448695129, width := 800, height := 600, field := 0,
      bytesperline := 0, sizeimage := 0, colorspace := 0, priv := 0 } }

/-- Counterexample to C3 as stated: with a previously configured still
pipeline, SetFormatStill tears the old configuration down (releases the
still queue's buffers and clears the configured flag) before the
negotiation runs, so when TryFormatStill then fails, the still-pipeline
state after the call differs from the state before the call. -/
theorem claim_C3_counterexample :
    (uvc_v4l2_set_format_still probeReject true sStillCfg fmt640).1
      = .error .einval
    ∧ (uvc_v4l2_set_format_still probeReject true sStillCfg fmt640).2.still_img_configed
      = false
    ∧ (uvc_v4l2_set_format_still probeReject true sStillCfg fmt640).2.still_queue_allocated
      = false
    ∧ sStillCfg.still_img_configed = true
    ∧ sStillCfg.still_queue_allocated = true := by
  refine ⟨by decide, by decide, by decide, by decide, by decide⟩

/-- C3 corrected: SetFormatStill fails Busy when still decoding is in
progress (for a matching request type); when TryFormatStill fails and
no still image was previously configured, the whole stream state is
unchanged; when one was previously configured, the still queue's
buffers are released and the configured flag cleared before the probe,
and that teardown is not rolled back on failure (the rest of the state
is untouched); a buffer-release failure propagates with the state
unchanged; and on success the negotiated configuration is fully
committed with the configured flag set. -/
theorem claim_C3_still_commit :
    (∀ (pS : ProbeFn) (freeOk : Bool) (s : UvcStreaming) (fmt : V4l2Format),
      fmt.type = s.type → s.still_decoding = true →
      uvc_v4l2_set_format_still pS freeOk s fmt = (.error .ebusy, s))
    ∧ (∀ (pS : ProbeFn) (freeOk : Bool) (s : UvcStreaming)
        (fmt : V4l2Format) (e : UvcErr),
        fmt.type = s.type → s.still_decoding = false →
        s.still_img_configed = false →
        uvc_v4l2_try_format_still pS s fmt = .error e →
        uvc_v4l2_set_format_still pS freeOk s fmt = (.error e, s))
    ∧ (∀ (pS : ProbeFn) (s : UvcStreaming) (fmt : V4l2Format) (e : UvcErr),
        fmt.type = s.type → s.still_decoding = false →
        s.still_img_configed = true →
        uvc_v4l2_try_format_still pS (stillTeardown s) fmt = .error e →
        uvc_v4l2_set_format_still pS true s fmt = (.error e, stillTeardown s))
    ∧ (∀ (pS : ProbeFn) (s : UvcStreaming) (fmt : V4l2Format),
        fmt.type = s.type → s.still_decoding = false →
        s.still_img_configed = true →
        uvc_v4l2_set_format_still pS false s fmt = (.error .eext, s))
    ∧ (∀ (pS : ProbeFn) (freeOk : Bool) (s : UvcStreaming)
        (fmt : V4l2Format) (s2 : UvcStreaming),
        uvc_v4l2_set_format_still pS freeOk s fmt = (.ok (), s2) →
        s2.still_img_configed = true
        ∧ ∃ p s1, (s1 = s ∨ s1 = stillTeardown s)
            ∧ uvc_v4l2_try_format_still pS s1 fmt = .ok p
            ∧ s2 = stillCommit s1 p) := by
  refine ⟨?_, ?_, ?_, ?_, ?_⟩
  · intro pS freeOk s fmt htype hdec
    unfold uvc_v4l2_set_format_still
    rw [if_neg (by simp [htype]), if_pos (by simp [hdec])]
  · intro pS freeOk s fmt e htype hdec hcfg htry
    unfold uvc_v4l2_set_format_still
    rw [if_neg (by simp [htype]), if_neg (by simp [hdec]),
      if_neg (by simp [hcfg])]
    show (match uvc_v4l2_try_format_still pS s fmt with
      | Except.error e2 => ((Except.error e2 : Except UvcErr Unit), s)
      | Except.ok p => (Except.ok (), stillCommit s p))
      = ((Except.error e : Except UvcErr Unit), s)
    rw [htry]
  · intro pS s fmt e htype hdec hcfg htry
    unfold uvc_v4l2_set_format_still
    rw [if_neg (by simp [htype]), if_neg (by simp [hdec]),
      if_pos (by simp [hcfg]), if_pos rfl]
    show (match uvc_v4l2_try_format_still pS (stillTeardown s) fmt with
      | Except.error e2 => ((Except.error e2 : Except UvcErr Unit), stillTeardown s)
      | Except.ok p => (Except.ok (), stillCommit (stillTeardown s) p))
      = ((Except.error e : Except UvcErr Unit), stillTeardown s)
    rw [htry]
  · intro pS s fmt htype hdec hcfg
    unfold uvc_v4l2_set_format_still
    rw [if_neg (by simp [htype]), if_neg (by simp [hdec]),
      if_pos (by simp [hcfg]), if_neg (by simp)]
  · intro pS freeOk s fmt s2 h
    unfold uvc_v4l2_set_format_still at h
    split at h
    · injection h with h1 h2
      exact Except.noConfusion h1
    · split at h
      · injection h with h1 h2
        exact Except.noConfusion h1
      · split at h
        · injection h with h1 h2
          exact Except.noConfusion h1
        · rename_i s1 hs1
          split at h
          · injection h with h1 h2
            exact Except.noConfusion h1
          · rename_i p hp
            injection h with h1 h2
            subst h2
            refine ⟨rfl, p, s1, ?_, hp, rfl⟩
            split at hs1
            · split at hs1
              · injection hs1 with h3
                exact Or.inr h3.symm
              · exact Except.noConfusion hs1
            · injection hs1 with h3
              exact Or.inl h3.symm

/-- Witness for the corrected C3: the busy gate, the unchanged-state
failure on an unconfigured pipeline, the torn-down-state failure on a
configured pipeline, the propagated free failure, and a full commit. -/
theorem claim_C3_still_commit_witness :
    uvc_v4l2_set_format_still probeReject true
        { sBase with still_decoding := true } fmt640
      = (.error .ebusy, { sBase with still_decoding := true })
    ∧ uvc_v4l2_set_format_still probeReject true sBase fmt640
      = (.error .einval, sBase)
    ∧ uvc_v4l2_set_format_still probeReject true sStillCfg fmt640
      = (.error .einval, stillTeardown sStillCfg)
    ∧ uvc_v4l2_set_format_still probeReject false sStillCfg fmt640
      = (.error .eext, sStillCfg)
    ∧ ((uvc_v4l2_set_format_still probeAccept true sStillMatch fmtStill).2.still_img_configed
        = true
      ∧ ∃ p s1, (s1 = sStillMatch ∨ s1 = stillTeardown sStillMatch)
          ∧ uvc_v4l2_try_format_still probeAccept s1 fmtStill = .ok p
          ∧ (uvc_v4l2_set_format_still probeAccept true sStillMatch fmtStill).2
              = stillCommit s1 p) := by
  refine ⟨?_, ?_, ?_, ?_, ?_⟩
  · exact claim_C3_still_commit.1 probeReject true
      { sBase with still_decoding := true } fmt640 (by decide) (by decide)
  · exact claim_C3_still_commit.2.1 probeReject true sBase fmt640 .einval
      (by decide) (by decide) (by decide) (by decide)
  · exact claim_C3_still_commit.2.2.1 probeReject sStillCfg fmt640 .einval
      (by decide) (by decide) (by decide) (by decide)
  · exact claim_C3_still_commit.2.2.2.1 probeReject sStillCfg fmt640
      (by decide) (by decide) (by decide)
  · exact claim_C3_still_commit.2.2.2.2 probeAccept true sStillMatch fmtStill
      (uvc_v4l2_set_format_still probeAccept true sStillMatch fmtStill).2
      (by decide)

/-- External queue collaborators that all succeed. -/
def extAllOk : ExtQueueOps :=
  { queryMain := .ok (), queryStill := .ok (), queueMain := .ok (),
    queueStill := .ok (), dequeueMain := .ok (), dequeueStill := .ok (),
    triggerStill := .ok () }

/-- C8: main-queue enqueue, dequeue and query fail busy for every handle
that is not active, without modifying the handle's privilege state or
the stream (no implicit acquisition), while still-tagged buffer
operations are accepted from any handle: their result and stream effect
are independent of the handle's privilege state and the handle state is
never modified.  (A QUERYBUF request carries a buffer type; the
main-queue busy gate applies to well-typed requests, since the source
rejects a mismatched type with EINVAL before the privilege check.) -/
theorem claim_C8_privilege_routing :
    (∀ (ext : ExtQueueOps) (s : UvcStreaming) (h : HandleState)
        (op : BufOp) (btype : Nat),
      h ≠ .active →
      (op = .querybuf → btype = s.type) →
      uvc_buf_ioctl ext s h op false btype = (.error .ebusy, s, h))
    ∧ (∀ (ext : ExtQueueOps) (s : UvcStreaming) (h h2 : HandleState)
        (op : BufOp) (btype : Nat),
        (uvc_buf_ioctl ext s h op true btype).1
          = (uvc_buf_ioctl ext s h2 op true btype).1
        ∧ (uvc_buf_ioctl ext s h op true btype).2.1
          = (uvc_buf_ioctl ext s h2 op true btype).2.1
        ∧ (uvc_buf_ioctl ext s h op true btype).2.2 = h) := by
  constructor
  · intro ext s h op btype hna htype
    cases op with
    | querybuf =>
      unfold uvc_buf_ioctl
      rw [if_neg (by simp), if_neg (by simp [htype rfl]), if_pos hna]
    | qbuf =>
      unfold uvc_buf_ioctl
      dsimp only
      rw [if_neg (by simp), if_pos hna]
    | dqbuf =>
      unfold uvc_buf_ioctl
      dsimp only
      rw [if_neg (by simp), if_pos hna]
  · intro ext s h h2 op btype
    cases op with
    | querybuf => exact ⟨rfl, rfl, rfl⟩
    | qbuf => exact ⟨rfl, rfl, rfl⟩
    | dqbuf =>
      cases htr : ext.triggerStill with
      | error u =>
        unfold uvc_buf_ioctl
        rw [htr]
        exact ⟨rfl, rfl, rfl⟩
      | ok u =>
        unfold uvc_buf_ioctl
        rw [htr]
        exact ⟨rfl, rfl, rfl⟩

/-- Witness for C8: a passive handle's main-queue enqueue fails busy
with stream and handle untouched; a still dequeue behaves identically
for a passive and an active handle. -/
theorem claim_C8_privilege_routing_witness :
    uvc_buf_ioctl extAllOk sBase .passive .qbuf false 1
      = (.error .ebusy, sBase, .passive)
    ∧ ((uvc_buf_ioctl extAllOk sBase .passive .dqbuf true 1).1
        = (uvc_buf_ioctl extAllOk sBase .active .dqbuf true 1).1
      ∧ (uvc_buf_ioctl extAllOk sBase .passive .dqbuf true 1).2.1
        = (uvc_buf_ioctl extAllOk sBase .active .dqbuf true 1).2.1
      ∧ (uvc_buf_ioctl extAllOk sBase .passive .dqbuf true 1).2.2
        = HandleState.passive) :=
  ⟨claim_C8_privilege_routing.1 extAllOk sBase .passive .qbuf 1 (by decide)
      (fun _ => by decide),
   claim_C8_privilege_routing.2 extAllOk sBase .passive .active .dqbuf 1⟩

/-- The base stream with a committed main configuration (current frame
present). -/
def sCfgMain : UvcStreaming := { sBase with cur_frame := some exFrame640 }

/-- Counterexample to C9 as stated: on a stream with no committed main
configuration (current frame absent) and the main queue not streaming,
SetStreamParams does not fail with an error — it reads the absent
current frame (a NULL dereference in the C source, modelled as the
distinguished `nullDeref` outcome, which is not an error return). -/
theorem claim_C9_counterexample :
    uvc_v4l2_set_streamparm probeAccept sBase 1 333333 = (.nullDeref, sBase)
    ∧ sBase.cur_frame = none
    ∧ sBase.queue_streaming = false := by
  refine ⟨by decide, by decide, by decide⟩

/-- C9 corrected: SetStreamParams fails Busy before probing whenever the
main queue is streaming (for a matching request type); its access to
the current frame is well-defined whenever a main configuration has
been committed; but when none has been committed it does not fail with
an error — it reads the absent current frame (NULL dereference in the
C source). -/
theorem claim_C9_streamparm (pf : ProbeFn) (s : UvcStreaming) (pt iv : Nat) :
    (pt = s.type → s.queue_streaming = true →
      uvc_v4l2_set_streamparm pf s pt iv = (.err .ebusy, s))
    ∧ (∀ fr : UvcFrame, s.cur_frame = some fr →
        (uvc_v4l2_set_streamparm pf s pt iv).1 ≠ SPRes.nullDeref)
    ∧ (pt = s.type → s.queue_streaming = false → s.cur_frame = none →
        uvc_v4l2_set_streamparm pf s pt iv = (.nullDeref, s)) := by
  refine ⟨?_, ?_, ?_⟩
  · intro hpt hstr
    unfold uvc_v4l2_set_streamparm
    rw [if_neg (by simp [hpt]), if_pos (by simp [hstr])]
  · intro fr hfr
    unfold uvc_v4l2_set_streamparm
    split_ifs with h1 h2
    · simp
    · simp
    · rw [hfr]
      cases hpf : pf { bmHint := s.ctrl.bmHint, bFormatIndex := s.ctrl.bFormatIndex, bFrameIndex := s.ctrl.bFrameIndex, dwFrameInterval := uvc_try_frame_interval fr iv, dwMaxVideoFrameSize := s.ctrl.dwMaxVideoFrameSize } with
      | error u => simp [hpf]
      | ok p => simp [hpf]
  · intro hpt hstr hnone
    unfold uvc_v4l2_set_streamparm
    rw [if_neg (by simp [hpt]), if_neg (by simp [hstr]), hnone]

/-- Witness for the corrected C9: the busy gate on a streaming queue,
a well-defined call on a committed configuration, and the null
dereference on an uncommitted one. -/
theorem claim_C9_streamparm_witness :
    uvc_v4l2_set_streamparm probeAccept sStreaming 1 333333
      = (.err .ebusy, sStreaming)
    ∧ (uvc_v4l2_set_streamparm probeAccept sCfgMain 1 333333).1
        ≠ SPRes.nullDeref
    ∧ uvc_v4l2_set_streamparm probeAccept sBase 1 333333
      = (.nullDeref, sBase) :=
  ⟨(claim_C9_streamparm probeAccept sStreaming 1 333333).1 (by decide)
      (by decide),
   (claim_C9_streamparm probeAccept sCfgMain 1 333333).2.1 exFrame640
      (by decide),
   (claim_C9_streamparm probeAccept sBase 1 333333).2.2 (by decide)
      (by decide) (by decide)⟩

end UvcV4l2
